import Mathlib

/-!
Verification of the `learn-golang` repository against its specification.

The spec's core is a synthetic "cancellable fan-out task group"
(TaskGroup / CancellationSignal / ResultAggregator).  The repository only
contains its demo-level callers (`errGroup` in
`04.concurrent/sync/sync.go`, which delegates to the external
`golang.org/x/sync/errgroup` library, and the channel demos in the
unnamed concurrency file); the component itself is therefore modelled
from the spec.  Concurrency is embedded by quantifying over the
completion order of the tasks: the aggregator's internal lock imposes a
total order on task completions, and a run of the group is the
sequential processing of outcomes in that order.

The remaining claims are shallow embeddings of source functions:
`performTask` / `handleChannelError` (unnamed concurrency file),
`Color.MarshalJSON` / `Color.UnmarshalJSON`
(`05.standard_lib/json.go`) and `sum` (`01.basics/func.go`).
-/

namespace LearnGolang

/-! ## Spec-modelled cancellable fan-out task group -/

/-- Task-specific error payloads, modelled as an opaque countable set. -/
abbrev Err := Nat

/-- Modelled from the spec: a submitted task is "a function taking a
cancellation-check capability and returning success-or-error"; the input
is the value of `isCancelled` when the task runs, `none` is success. -/
abbrev Task := Bool → Option Err

/-- Modelled from the spec: `CancellationSignal` has a boolean
"cancelled" state, transitions monotonically false→true. -/
structure CancellationSignal where
  cancelled : Bool
deriving DecidableEq, Repr

/-- Modelled from the spec: `cancel()` sets `cancelled := true`; a no-op
if already true; no return value, cannot fail (a total function). -/
def CancellationSignal.cancel (_s : CancellationSignal) : CancellationSignal :=
  { cancelled := true }

/-- Modelled from the spec: `isCancelled()` is a non-blocking read. -/
def CancellationSignal.isCancelled (s : CancellationSignal) : Bool :=
  s.cancelled

/-- Modelled from the spec: `ResultAggregator` holds the first-recorded
error (optional) and a completion count. -/
structure ResultAggregator where
  firstError : Option Err
  completed : Nat
deriving DecidableEq, Repr

/-- Modelled from the spec: `recordOutcome(result)`: if `result` is an
error and no error has been recorded yet, stores it and triggers the
group's CancellationSignal; always increments the completion count. -/
def ResultAggregator.recordOutcome (a : ResultAggregator)
    (s : CancellationSignal) (r : Option Err) :
    ResultAggregator × CancellationSignal :=
  match r, a.firstError with
  | some e, none =>
      ({ firstError := some e, completed := a.completed + 1 }, s.cancel)
  | _, _ =>
      ({ a with completed := a.completed + 1 }, s)

/-- One task finishing: it observes the signal, produces its outcome,
and the aggregator records it. -/
def stepTask (st : CancellationSignal × ResultAggregator) (t : Task) :
    CancellationSignal × ResultAggregator :=
  let (ag, sg) := st.2.recordOutcome st.1 (t st.1.isCancelled)
  (sg, ag)

/-- Process all tasks in their completion order (the total order the
aggregator's lock enforces). -/
def runAll (order : List Task) (st : CancellationSignal × ResultAggregator) :
    CancellationSignal × ResultAggregator :=
  order.foldl stepTask st

/-- Modelled from the spec: `TaskGroup` owns the submitted tasks, the
cancellation signal, the result aggregator, and remembers whether `join`
has been invoked. -/
structure TaskGroup where
  tasks : List Task
  joined : Bool
  signal : CancellationSignal
  agg : ResultAggregator

/-- The error kinds of the spec: `TaskFailure` and `InvalidState`. -/
inductive GroupError where
  | taskFailure (e : Err)
  | invalidState
deriving DecidableEq, Repr

/-- A freshly constructed group holding the submitted tasks. -/
def TaskGroup.new : TaskGroup :=
  { tasks := [], joined := false
    signal := { cancelled := false }
    agg := { firstError := none, completed := 0 } }

/-- Modelled from the spec: `submit(task)` appends a task; fails with
`InvalidState` if called after `join` has started. -/
def TaskGroup.submit (g : TaskGroup) (t : Task) : Except GroupError TaskGroup :=
  if g.joined then
    .error .invalidState
  else
    .ok { g with tasks := g.tasks ++ [t] }

/-- Modelled from the spec: `join()` starts all submitted tasks, blocks
until every task has finished, and returns the first recorded error or
success; calling `join` twice fails with `InvalidState`.  `order` is the
completion order of the tasks, a permutation of the submitted list. -/
def TaskGroup.join (g : TaskGroup) (order : List Task) :
    Except GroupError Unit × TaskGroup :=
  if g.joined then
    (.error .invalidState, g)
  else
    let (sg, ag) := runAll order (g.signal, g.agg)
    (match ag.firstError with
     | some e => .error (.taskFailure e)
     | none => .ok (),
     { g with joined := true, signal := sg, agg := ag })

/-- The group state after submitting the tasks `ts` (in order) and
before `join`. -/
def freshGroup (ts : List Task) : TaskGroup :=
  { TaskGroup.new with tasks := ts }

/-- The outcome each task produces during a run, in completion order:
the flag a task observes is the initial flag or-ed with "some earlier
task failed". -/
def runOutcomes : List Task → Bool → List (Option Err)
  | [], _ => []
  | t :: ts, c => t c :: runOutcomes ts (c || (t c).isSome)

/-! ### Bridge lemmas: `runAll` in terms of the outcome trace -/

lemma runAll_of_firstError_some (order : List Task) (s : CancellationSignal)
    (a : ResultAggregator) (e : Err) (h : a.firstError = some e) :
    runAll order (s, a) = (s, { a with completed := a.completed + order.length }) := by
  induction order generalizing a with
  | nil => simp [runAll]
  | cons t ts ih =>
      have hstep : stepTask (s, a) t = (s, { a with completed := a.completed + 1 }) := by
        cases hr : t s.isCancelled <;>
          simp [stepTask, ResultAggregator.recordOutcome, h, hr]
      have hrec := ih { a with completed := a.completed + 1 } h
      simp only [runAll, List.foldl] at hrec ⊢
      rw [hstep, hrec]
      simp [Nat.add_assoc, Nat.add_comm 1 ts.length]

lemma runAll_fresh (order : List Task) (c : Bool) (k : Nat) :
    runAll order (⟨c⟩, ⟨none, k⟩) =
      (⟨c || (runOutcomes order c).any Option.isSome⟩,
       ⟨(runOutcomes order c).findSome? id, k + order.length⟩) := by
  induction order generalizing c k with
  | nil => simp [runAll, runOutcomes]
  | cons t ts ih =>
      cases ht : t c with
      | none =>
          have hstep : stepTask (⟨c⟩, ⟨none, k⟩) t = (⟨c⟩, ⟨none, k + 1⟩) := by
            simp [stepTask, ResultAggregator.recordOutcome,
              CancellationSignal.isCancelled, ht]
          have hrec := ih c (k + 1)
          simp only [runAll, List.foldl] at hrec ⊢
          rw [hstep, hrec]
          simp [runOutcomes, ht, List.findSome?, Nat.add_assoc,
            Nat.add_comm 1 ts.length]
      | some e =>
          have hstep : stepTask (⟨c⟩, ⟨none, k⟩) t = (⟨true⟩, ⟨some e, k + 1⟩) := by
            simp [stepTask, ResultAggregator.recordOutcome,
              CancellationSignal.isCancelled, CancellationSignal.cancel, ht]
          have hrec := runAll_of_firstError_some ts ⟨true⟩ ⟨some e, k + 1⟩ e rfl
          simp only [runAll, List.foldl] at hrec ⊢
          rw [hstep, hrec]
          simp [runOutcomes, ht, List.findSome?, Nat.add_assoc,
            Nat.add_comm 1 ts.length]

lemma runOutcomes_of_allNone (ts : List Task) (c : Bool)
    (h : ∀ t ∈ ts, ∀ b, t b = none) :
    runOutcomes ts c = List.replicate ts.length none := by
  induction ts generalizing c with
  | nil => simp [runOutcomes]
  | cons t ts ih =>
      have ht := h t (List.mem_cons_self t ts)
      simp [runOutcomes, ht, List.replicate,
        ih c (fun u hu b => h u (List.mem_cons_of_mem t hu) b)]

lemma findSome_replicate_none (n : Nat) :
    (List.replicate n (none : Option Err)).findSome? id = none := by
  induction n with
  | zero => simp
  | succ m ih => simp [List.replicate, List.findSome?, ih]

lemma findSome_runOutcomes_one_fail (ts1 ts2 : List Task) (t0 : Task)
    (E : Err) (c : Bool)
    (hfail : ∀ b, t0 b = some E)
    (hok1 : ∀ t ∈ ts1, ∀ b, t b = none) :
    (runOutcomes (ts1 ++ t0 :: ts2) c).findSome? id = some E := by
  induction ts1 generalizing c with
  | nil => simp [runOutcomes, hfail, List.findSome?]
  | cons t ts ih =>
      have ht := hok1 t (List.mem_cons_self t ts)
      have hrec := ih c (fun u hu b => hok1 u (List.mem_cons_of_mem t hu) b)
      simp [runOutcomes, ht, List.findSome?, hrec]

lemma findSome_runOutcomes_uniform (order : List Task) (E : Err) (c : Bool)
    (h : ∀ t ∈ order, (∀ b, t b = none) ∨ (∀ b, t b = some E))
    (hex : ∃ t ∈ order, ∀ b, t b = some E) :
    (runOutcomes order c).findSome? id = some E := by
  induction order generalizing c with
  | nil => simp at hex
  | cons t ts ih =>
      rcases h t (List.mem_cons_self t ts) with hnone | hsome
      · have hex' : ∃ u ∈ ts, ∀ b, u b = some E := by
          rcases hex with ⟨u, hu, hfail⟩
          rcases List.mem_cons.mp hu with rfl | hu'
          · exact absurd (hfail true) (by simp [hnone true])
          · exact ⟨u, hu', hfail⟩
        have hrec := ih c (fun u hu => h u (List.mem_cons_of_mem t hu)) hex'
        simp [runOutcomes, hnone, List.findSome?, hrec]
      · simp [runOutcomes, hsome, List.findSome?]

/-! ### Claims about the task group -/

/-- C1: if exactly one submitted task fails with error `E` and every
other task succeeds, `join` returns `E` itself, surfaced only through
`join`'s return value as a `taskFailure` and not altered. -/
theorem claim_C1_join_returns_single_error
    (subs ts1 ts2 : List Task) (t0 : Task) (E : Err)
    (hperm : (ts1 ++ t0 :: ts2).Perm subs)
    (hfail : ∀ b, t0 b = some E)
    (hok : ∀ t ∈ ts1 ++ ts2, ∀ b, t b = none) :
    ((freshGroup subs).join (ts1 ++ t0 :: ts2)).1 =
      .error (.taskFailure E) := by
  have hfe := findSome_runOutcomes_one_fail ts1 ts2 t0 E false hfail
    (fun t ht b => hok t (List.mem_append_left ts2 ht) b)
  simp [TaskGroup.join, freshGroup, TaskGroup.new, runAll_fresh, hfe]

/-- C1 witness: a concrete three-task run with one failure. -/
theorem claim_C1_witness :
    ((freshGroup [fun _ => none, fun _ => some 9, fun _ => none]).join
      [fun _ => none, fun _ => some 9, fun _ => none]).1 =
      .error (.taskFailure 9) :=
  claim_C1_join_returns_single_error _ [fun _ => none] [fun _ => none]
    (fun _ => some 9) 9 (List.Perm.refl _) (fun _ => rfl)
    (by intro t ht b; simp at ht; rcases ht with rfl | rfl <;> rfl)

/-- C2: when two or more tasks fail in a run, `join` returns exactly
one error — the first recorded under the aggregator's completion
order — and every later failure is swallowed: it is counted as having
occurred (the completion count still reaches N) but never returned. -/
theorem claim_C2_first_error_wins
    (subs order : List Task) (e : Err)
    (hperm : order.Perm subs)
    (hfirst : (runOutcomes order false).findSome? id = some e)
    (hmulti : 2 ≤ ((runOutcomes order false).filterMap id).length) :
    ((freshGroup subs).join order).1 = .error (.taskFailure e) ∧
    ((freshGroup subs).join order).2.agg.completed = subs.length := by
  constructor
  · simp [TaskGroup.join, freshGroup, TaskGroup.new, runAll_fresh, hfirst]
  · simp [TaskGroup.join, freshGroup, TaskGroup.new, runAll_fresh,
      hperm.length_eq]

/-- C2 witness: two always-failing tasks; the first error (5) is
returned, the second (7) is swallowed, both are counted. -/
theorem claim_C2_witness :
    ((freshGroup [fun _ => some 5, fun _ => some 7]).join
      [fun _ => some 5, fun _ => some 7]).1 = .error (.taskFailure 5) ∧
    ((freshGroup [fun _ => some 5, fun _ => some 7]).join
      [fun _ => some 5, fun _ => some 7]).2.agg.completed =
      [fun _ => some 5, (fun _ => some 7 : Task)].length :=
  claim_C2_first_error_wins _ _ 5 (List.Perm.refl _) rfl (by decide)

/-- C3: for every number N ≥ 0 of submitted tasks, `join` returns only
after all N tasks have signaled completion: the completion count equals
the number of submitted tasks once `join` returns. -/
theorem claim_C3_join_waits_for_all
    (subs order : List Task) (hperm : order.Perm subs) :
    ((freshGroup subs).join order).2.agg.completed = subs.length := by
  simp [TaskGroup.join, freshGroup, TaskGroup.new, runAll_fresh,
    hperm.length_eq]

/-- C3 witness: a concrete two-task run completes both tasks. -/
theorem claim_C3_witness :
    ((freshGroup [fun _ => none, fun _ => some 3]).join
      [fun _ => some 3, fun _ => none]).2.agg.completed =
      [fun _ => none, (fun _ => some 3 : Task)].length :=
  claim_C3_join_waits_for_all _ _ (List.Perm.swap _ _ _)

/-- C4: `cancel` is idempotent: on an already-cancelled signal it is a
no-op, cancelling twice equals cancelling once, and `cancel` is a total
function (it always yields a cancelled signal, never fails). -/
theorem claim_C4_cancel_idempotent (s : CancellationSignal) :
    (s.cancelled = true → s.cancel = s) ∧
    s.cancel.cancel = s.cancel ∧
    s.cancel.cancelled = true := by
  cases s with
  | mk b =>
      refine ⟨fun h => ?_, rfl, rfl⟩
      simp only [] at h
      simp [CancellationSignal.cancel, h]

/-- C4 witness: concrete signals, cancelled and not. -/
theorem claim_C4_witness :
    CancellationSignal.cancel ⟨true⟩ = (⟨true⟩ : CancellationSignal) ∧
    (CancellationSignal.cancel ⟨false⟩).cancel =
      CancellationSignal.cancel ⟨false⟩ :=
  ⟨(claim_C4_cancel_idempotent ⟨true⟩).1 rfl,
   (claim_C4_cancel_idempotent ⟨false⟩).2.1⟩

/-- C5: if every submitted task returns success, `join` returns
success. -/
theorem claim_C5_no_failure_join_ok
    (subs order : List Task) (hperm : order.Perm subs)
    (hok : ∀ t ∈ order, ∀ b, t b = none) :
    ((freshGroup subs).join order).1 = .ok () := by
  have hout := runOutcomes_of_allNone order false hok
  simp [TaskGroup.join, freshGroup, TaskGroup.new, runAll_fresh, hout,
    findSome_replicate_none]

/-- C5 witness: two always-succeeding tasks. -/
theorem claim_C5_witness :
    ((freshGroup [fun _ => none, fun _ => none]).join
      [fun _ => none, fun _ => none]).1 = .ok () :=
  claim_C5_no_failure_join_ok _ _ (List.Perm.refl _)
    (by intro t ht b; simp at ht; rcases ht with rfl | rfl <;> rfl)

/-- The spec's five-task scenario: the task at index 2 returns error
`E` immediately; the others poll the cancellation signal and exit
successfully once cancelled (they never fail). -/
def scenarioTask (E : Err) (i : Nat) : Task :=
  if i = 2 then fun _ => some E else fun _ => none

/-- C6: in the five-task scenario where task index 2 fails with `E` and
every other task polls the cancellation signal and exits once
cancelled, `join` returns task 2's error, for every completion order. -/
theorem claim_C6_scenario_returns_task2_error
    (E : Err) (order : List Nat) (hperm : order.Perm (List.range 5)) :
    ((freshGroup ((List.range 5).map (scenarioTask E))).join
      (order.map (scenarioTask E))).1 = .error (.taskFailure E) := by
  have hclass : ∀ t ∈ order.map (scenarioTask E),
      (∀ b, t b = none) ∨ (∀ b, t b = some E) := by
    intro t ht
    rcases List.mem_map.mp ht with ⟨i, _, rfl⟩
    by_cases hi : i = 2
    · exact Or.inr (fun b => by simp [scenarioTask, hi])
    · exact Or.inl (fun b => by simp [scenarioTask, hi])
  have h2 : (2 : Nat) ∈ order := hperm.mem_iff.mpr (by simp)
  have hex : ∃ t ∈ order.map (scenarioTask E), ∀ b, t b = some E :=
    ⟨scenarioTask E 2, List.mem_map_of_mem (scenarioTask E) h2,
     fun b => by simp [scenarioTask]⟩
  have hfe := findSome_runOutcomes_uniform (order.map (scenarioTask E))
    E false hclass hex
  simp [TaskGroup.join, freshGroup, TaskGroup.new, runAll_fresh, hfe]

/-- C6 witness: the scenario with error 42 and the identity completion
order. -/
theorem claim_C6_witness :
    ((freshGroup ((List.range 5).map (scenarioTask 42))).join
      ((List.range 5).map (scenarioTask 42))).1 =
      .error (.taskFailure 42) :=
  claim_C6_scenario_returns_task2_error 42 (List.range 5)
    (List.Perm.refl _)

/-- C7: calling `submit` after `join` has been invoked on the same
group fails with `InvalidState` instead of appending the task. -/
theorem claim_C7_submit_after_join_fails
    (g : TaskGroup) (order : List Task) (t : Task) :
    ((g.join order).2).submit t = .error .invalidState := by
  by_cases h : g.joined
  · simp [TaskGroup.join, TaskGroup.submit, h]
  · simp [TaskGroup.join, TaskGroup.submit, h]

/-! ## `05.standard_lib/json.go`: custom `Color` marshalling

`Color` has three `uint8` fields.  `MarshalJSON` formats
`"\"#%02x%02x%02x\""`, i.e. a quoted `#rrggbb` string with two lowercase
hex digits per component.  `UnmarshalJSON` parses it back with
`fmt.Sscanf` and the same format: literal `"` and `#`, then three reads
of at most two hex digits each into `uint8`s, then the closing `"`
(further input is not examined by `Sscanf` once the format string is
exhausted).  Strings are embedded as `List Char`, `uint8` as `Nat`
bounded by 256. -/

/-- The `Color` struct from `json.go`: three `uint8` components. -/
structure Color where
  Red : Nat
  Green : Nat
  Blue : Nat
deriving DecidableEq, Repr

/-- The lowercase hex digit `%x` prints for a value below 16
(`0`–`9` then `a`–`f`). -/
def hexDigitChar (n : Nat) : Char :=
  if n < 10 then Char.ofNat ('0'.toNat + n)
  else Char.ofNat ('a'.toNat + (n - 10))

/-- Formatting a `uint8` with `%02x`: exactly two lowercase hex digits. -/
def hex2 (n : Nat) : List Char :=
  [hexDigitChar (n / 16), hexDigitChar (n % 16)]

/-- The method `Color.MarshalJSON`: the bytes of `fmt.Sprintf("\"#%02x%02x%02x\"",
c.Red, c.Green, c.Blue)`. -/
def Color.MarshalJSON (c : Color) : List Char :=
  '"' :: '#' :: (hex2 c.Red ++ hex2 c.Green ++ hex2 c.Blue ++ ['"'])

/-- The value `fmt.Sscanf`'s `%x` assigns to a hex digit character
(upper- or lowercase, as Go's scanner accepts both). -/
def hexVal (ch : Char) : Option Nat :=
  if '0' ≤ ch ∧ ch ≤ '9' then some (ch.toNat - '0'.toNat)
  else if 'a' ≤ ch ∧ ch ≤ 'f' then some (ch.toNat - 'a'.toNat + 10)
  else if 'A' ≤ ch ∧ ch ≤ 'F' then some (ch.toNat - 'A'.toNat + 10)
  else none

/-- One `%02x` read: `Sscanf` consumes up to two hex digits; on the
strings produced by `MarshalJSON` both characters are hex digits, so
two are read. -/
def parseHex2 : List Char → Option (Nat × List Char)
  | c1 :: c2 :: rest => do
      let d1 ← hexVal c1
      let d2 ← hexVal c2
      pure (16 * d1 + d2, rest)
  | _ => none

/-- The method `Color.UnmarshalJSON`: `fmt.Sscanf(string(data),
"\"#%02x%02x%02x\"", &c.Red, &c.Green, &c.Blue)`; `none` models a
non-nil scan error. -/
def Color.UnmarshalJSON (data : List Char) : Option Color :=
  match data with
  | '"' :: '#' :: rest => do
      let (r, rest1) ← parseHex2 rest
      let (g, rest2) ← parseHex2 rest1
      let (b, rest3) ← parseHex2 rest2
      match rest3 with
      | '"' :: _ => pure { Red := r, Green := g, Blue := b }
      | _ => none
  | _ => none

lemma hexVal_hexDigitChar (d : Nat) (hd : d < 16) :
    hexVal (hexDigitChar d) = some d := by
  interval_cases d <;> rfl

lemma parseHex2_hex2 (n : Nat) (hn : n < 256) (rest : List Char) :
    parseHex2 (hex2 n ++ rest) = some (n, rest) := by
  have h1 : n / 16 < 16 := Nat.div_lt_of_lt_mul (by omega)
  have h2 : n % 16 < 16 := Nat.mod_lt n (by omega)
  simp [hex2, parseHex2, hexVal_hexDigitChar _ h1, hexVal_hexDigitChar _ h2,
    Nat.div_add_mod]

/-- C8: for every `Color` (any `uint8` components), unmarshalling the
bytes produced by marshalling yields the same `Color`:
`Color.UnmarshalJSON` is a left inverse of `Color.MarshalJSON`. -/
theorem claim_C8_color_roundtrip (c : Color)
    (hr : c.Red < 256) (hg : c.Green < 256) (hb : c.Blue < 256) :
    Color.UnmarshalJSON c.MarshalJSON = some c := by
  cases c with
  | mk r g b =>
      simp only [Color.MarshalJSON, Color.UnmarshalJSON, List.append_assoc]
      rw [parseHex2_hex2 r hr]
      simp only [Option.bind_eq_bind, Option.some_bind]
      rw [parseHex2_hex2 g hg]
      simp only [Option.some_bind]
      rw [parseHex2_hex2 b hb]
      simp

/-- C8 witness: the tomato colour used in `json.go`'s `custom()` demo
round-trips. -/
theorem claim_C8_witness :
    Color.UnmarshalJSON (Color.MarshalJSON ⟨255, 99, 71⟩) =
      some ⟨255, 99, 71⟩ :=
  claim_C8_color_roundtrip ⟨255, 99, 71⟩ (by decide) (by decide) (by decide)

/-! ## Unnamed concurrency file: `performTask` / `handleChannelError`

`performTask(id, errCh)` sends `errors.New("task failed")` on the
channel when `id` is even and `nil` when `id` is odd.
`handleChannelError` launches 5 such tasks, receives exactly 5 values
from the buffered channel, and prints every non-nil error received.
The channel delivers one value per task in a nondeterministic arrival
order, embedded as a permutation of the sent values. -/

/-- The value `performTask id errCh` sends on the error channel. -/
def performTask (id : Nat) : Option String :=
  if id % 2 == 0 then some "task failed" else none

/-- The local `tasks := 5` in `handleChannelError`. -/
def hceTasks : Nat := 5

/-- The multiset of values sent on `errCh`: one per launched task. -/
def hceLaunched : List (Option String) :=
  (List.range hceTasks).map performTask

/-- The receive loop of `handleChannelError`: the errors it prints, in
arrival order (each non-nil received value is reported). -/
def handleChannelError (received : List (Option String)) : List String :=
  received.filterMap id

/-- C9: `handleChannelError` receives exactly one result per launched
task (5 results for 5 tasks) and reports every non-nil error received:
with `performTask` failing for every even id, all three failures (ids
0, 2, 4) are reported, not only the first. -/
theorem claim_C9_all_errors_reported (received : List (Option String))
    (hperm : received.Perm hceLaunched) :
    received.length = hceTasks ∧
    handleChannelError received = List.replicate 3 "task failed" := by
  constructor
  · rw [hperm.length_eq]; rfl
  · have h3 : List.Perm (received.filterMap id)
        (List.replicate 3 "task failed") := by
      have h := hperm.filterMap id
      simpa using h
    exact List.perm_replicate.mp h3

/-- C9 witness: a concrete arrival order interleaving failures and
successes. -/
theorem claim_C9_witness :
    [some "task failed", none, some "task failed", none,
      some "task failed"].length = hceTasks ∧
    handleChannelError [some "task failed", none, some "task failed",
      none, some "task failed"] = List.replicate 3 "task failed" :=
  claim_C9_all_errors_reported _ (by decide)

/-! ## `01.basics/func.go`: variadic `sum`

`sum(nums ...int)` runs `total := 0; for _, num := range nums { total
+= num }; return total`.  Go's `int` is 64-bit with two's-complement
wraparound, embedded as `Int` normalized into `[-2^63, 2^63)` after
each addition. -/

/-- Two's-complement wraparound of Go's 64-bit `int`. -/
def wrapInt64 (n : Int) : Int :=
  (n + 2 ^ 63) % 2 ^ 64 - 2 ^ 63

/-- The function `sum` from `func.go`: the accumulation loop over the variadic
arguments. -/
def sum (nums : List Int) : Int :=
  nums.foldl (fun total num => wrapInt64 (total + num)) 0

lemma wrapInt64_add_left (x y : Int) :
    wrapInt64 (wrapInt64 x + y) = wrapInt64 (x + y) := by
  simp only [wrapInt64]
  omega

lemma sum_foldl_wrap (l : List Int) (a : Int) :
    l.foldl (fun total num => wrapInt64 (total + num)) (wrapInt64 a) =
      wrapInt64 (l.foldl (· + ·) a) := by
  induction l generalizing a with
  | nil => simp
  | cons n t ih =>
      simp only [List.foldl]
      rw [wrapInt64_add_left, ih]

/-- C10: `sum` returns the fold of addition over its argument list (in
Go's wrapping 64-bit arithmetic): it equals the mathematical left fold
reduced into `int` range, it returns exactly the mathematical fold
whenever that fold is in `int` range, and `sum` of zero arguments
returns 0. -/
theorem claim_C10_sum_is_fold (nums : List Int) :
    sum nums = wrapInt64 (nums.foldl (· + ·) 0) ∧
    sum [] = 0 ∧
    (-(2 ^ 63) ≤ nums.foldl (· + ·) 0 → nums.foldl (· + ·) 0 < 2 ^ 63 →
      sum nums = nums.foldl (· + ·) 0) := by
  have hwrap0 : wrapInt64 0 = 0 := by simp only [wrapInt64]; omega
  have hmain : sum nums = wrapInt64 (nums.foldl (· + ·) 0) := by
    rw [sum, ← hwrap0, sum_foldl_wrap, hwrap0]
  refine ⟨hmain, rfl, fun h1 h2 => ?_⟩
  rw [hmain]
  simp only [wrapInt64]
  omega

/-- C10 witness: `sum(1, 2, 3, 4)` (the call in `main`) equals the
fold of addition, 10. -/
theorem claim_C10_witness :
    sum [1, 2, 3, 4] = ([1, 2, 3, 4] : List Int).foldl (· + ·) 0 ∧
    sum [1, 2, 3, 4] = 10 :=
  ⟨(claim_C10_sum_is_fold [1, 2, 3, 4]).2.2 (by decide) (by decide),
   by rw [(claim_C10_sum_is_fold [1, 2, 3, 4]).2.2 (by decide) (by decide)]
      decide⟩

end LearnGolang
